import Mathlib

/-!
Verification development for the yogo detection data pipeline
(src/utils.py, src/dataloader.py).

Numeric values are modelled as rationals (ℚ).  A batched grid tensor of
shape [batch, channels, Sy, Sx] is modelled as a structure carrying its
four extents and a total indexing function; all reads performed by the
embedded operations stay inside the recorded extents whenever the
theorems' shape hypotheses hold.  The real-valued softmax applied by
`Metrics.format_for_confusion` is modelled as an abstract normalizing
transform parameter, since `exp` has no exact rational counterpart; every
theorem about that function holds for an arbitrary such transform.
-/

/-- A batched grid tensor of shape `[bs, ch, sy, sx]` (values as ℚ). -/
structure Tensor4 where
  bs : ℕ
  ch : ℕ
  sy : ℕ
  sx : ℕ
  data : ℕ → ℕ → ℕ → ℕ → ℚ

/-- A single-image grid tensor of shape `[ch, sy, sx]`, as taken by
`draw_rects` for prediction input. -/
structure Tensor3 where
  ch : ℕ
  sy : ℕ
  sx : ℕ
  data : ℕ → ℕ → ℕ → ℚ

/-- Python's `int()` / torch's `.long()` conversion: truncation toward zero. -/
def ratTrunc (q : ℚ) : ℤ :=
  if q < 0 then ⌈q⌉ else ⌊q⌋

/-- `torch.argmax` over a vector, returning the index of the first maximal
element (auxiliary loop: current best index/value, next index). -/
def argmaxAux (bi : ℕ) (bv : ℚ) (i : ℕ) : List ℚ → ℕ
  | [] => bi
  | q :: rest => if bv < q then argmaxAux i q (i + 1) rest else argmaxAux bi bv (i + 1) rest

/-- `torch.argmax` over a vector (first maximal index; 0 on empty input). -/
def argmaxIdx : List ℚ → ℕ
  | [] => 0
  | q :: rest => argmaxAux 0 q 1 rest

/-- Entry `[i, c]` of the row-major view `img.view(-1, Sy*Sx).T` used in
`Metrics.format_for_mAP` (src/utils.py lines 95-96): flat cell index `i`
decomposes as row `i / sx`, column `i % sx`. -/
def rowCell (t : Tensor4) (sx b i c : ℕ) : ℚ :=
  t.data b c (i / sx) (i % sx)

/-- The class-logit slice `[5:]` of one cell's channel vector
(src/utils.py lines 59 and 111). -/
def logitsAt (t : Tensor4) (b y x : ℕ) : List ℚ :=
  (List.range (t.ch - 5)).map (fun k => t.data b (5 + k) y x)

/-- `torch.all(img_labels[0, ...] == 0)` (src/utils.py line 78): the
presence channel of image `b` is identically zero, over the label
tensor's own grid extents. -/
def allZeroPresence (labels : Tensor4) (b : ℕ) : Bool :=
  (List.range labels.sy).all fun y =>
    (List.range labels.sx).all fun x => decide (labels.data b 0 y x = 0)

/-- The occupied-cell index list for image `b`:
`mask = row_ordered_img_labels[..., 0] == 1` (src/utils.py line 99).  The
flat cell enumeration uses the `Sy`/`Sx` bound last at line 73 (from the
prediction tensor); the presence values are read from the label tensor. -/
def cellsUsed (preds labels : Tensor4) (b : ℕ) : List ℕ :=
  (List.range (preds.sy * preds.sx)).filter fun i =>
    decide (labels.data b 0 (i / preds.sx) (i % preds.sx) = 1)

/-- Ground-truth record emitted per image by the grid decoder. -/
structure MAPLabelRecord where
  boxes : List (ℚ × ℚ × ℚ × ℚ)
  labels : List ℚ
  deriving DecidableEq

/-- Prediction record emitted per image by the grid decoder. -/
structure MAPPredRecord where
  boxes : List (ℚ × ℚ × ℚ × ℚ)
  scores : List ℚ
  labels : List ℕ
  deriving DecidableEq

/-- The ground-truth record built for image `b` by
`Metrics.format_for_mAP` (src/utils.py lines 78-106): empty when the
presence channel is identically zero, otherwise label box = channels 1-4
and label class = channel 5 (read as stored) at each occupied cell. -/
def mAPLabelRec (preds labels : Tensor4) (b : ℕ) : MAPLabelRecord :=
  if allZeroPresence labels b then
    { boxes := [], labels := [] }
  else
    let cells := cellsUsed preds labels b
    { boxes := cells.map fun i =>
        (rowCell labels preds.sx b i 1, rowCell labels preds.sx b i 2,
         rowCell labels preds.sx b i 3, rowCell labels preds.sx b i 4),
      labels := cells.map fun i => rowCell labels preds.sx b i 5 }

/-- The prediction record built for image `b` by
`Metrics.format_for_mAP` (src/utils.py lines 78-113): empty when the
presence channel is identically zero, otherwise prediction box = channels
0-3, score = channel 4, class = argmax of the logit slice, at the same
occupied cells as the labels. -/
def mAPPredRec (preds labels : Tensor4) (b : ℕ) : MAPPredRecord :=
  if allZeroPresence labels b then
    { boxes := [], scores := [], labels := [] }
  else
    let cells := cellsUsed preds labels b
    { boxes := cells.map fun i =>
        (rowCell preds preds.sx b i 0, rowCell preds preds.sx b i 1,
         rowCell preds preds.sx b i 2, rowCell preds preds.sx b i 3),
      scores := cells.map fun i => rowCell preds preds.sx b i 4,
      labels := cells.map fun i =>
        argmaxIdx (logitsAt preds b (i / preds.sx) (i % preds.sx)) }

/-- `Metrics.format_for_mAP` (src/utils.py lines 68-115): one prediction
record and one ground-truth record per image of the batch (the Python
`zip` runs over the smaller of the two batch extents). -/
def format_for_mAP (preds labels : Tensor4) :
    List MAPPredRecord × List MAPLabelRecord :=
  ((List.range (min preds.bs labels.bs)).map (mAPPredRec preds labels),
   (List.range (min preds.bs labels.bs)).map (mAPLabelRec preds labels))

/-- The number of cells of image `b`'s label grid whose presence flag
(channel 0) equals 1, counted over the grid coordinates themselves. -/
def numOccupied (labels : Tensor4) (b : ℕ) : ℕ :=
  ((List.range labels.sy).map fun y =>
    ((List.range labels.sx).filter fun x =>
      decide (labels.data b 0 y x = 1)).length).sum

/-- Image index of flat position `j` under the row-major flattening
`reshape(-1, bs * Sx * Sy)` of a `[·, bs, Sy, Sx]` tensor
(src/utils.py lines 60-65). -/
def flatB (sy sx j : ℕ) : ℕ := j / (sy * sx)

/-- Grid row of flat position `j` under the same flattening. -/
def flatY (sy sx j : ℕ) : ℕ := (j % (sy * sx)) / sx

/-- Grid column of flat position `j` under the same flattening. -/
def flatX (sy sx j : ℕ) : ℕ := (j % (sy * sx)) % sx

/-- The in-place slice assignment
`batch_preds[:, 5:, :, :] = torch.softmax(batch_preds[:, 5:, :, :], dim=1)`
(src/utils.py line 59), with the softmax modelled as the abstract
normalizing transform `σ` applied to each cell's logit slice.  Positions
outside the tensor's extents (never touched by the slice write) keep
their old values. -/
def softmaxWrite (σ : List ℚ → List ℚ) (t : Tensor4) : Tensor4 :=
  { t with data := fun b c y x =>
      if b < t.bs ∧ 5 ≤ c ∧ c < t.ch ∧ y < t.sy ∧ x < t.sx then
        (σ (logitsAt t b y x)).getD (c - 5) 0
      else t.data b c y x }

/-- `Metrics.format_for_confusion` (src/utils.py lines 52-66).  Returns
the pair of flat outputs together with the post-call states of the two
tensor arguments (the prediction tensor is mutated in place by the
softmax write at line 59; the label tensor is never written).  Flat
row `j` of the prediction output reads the post-softmax class channels
of cell `(flatB j, flatY j, flatX j)`; flat row `j` of the label output
is channel 5 of the same cell, cast with `.long()`.  The flat extent
`bs * Sx * Sy` is taken from the label tensor's shape, bound last at
line 57. -/
def format_for_confusion (σ : List ℚ → List ℚ) (preds labels : Tensor4) :
    (List (List ℚ) × List ℤ) × Tensor4 × Tensor4 :=
  let bs := labels.bs
  let Sy := labels.sy
  let Sx := labels.sx
  let preds2 := softmaxWrite σ preds
  let rows := (List.range (bs * Sx * Sy)).map fun j =>
    (List.range (preds.ch - 5)).map fun k =>
      preds2.data (flatB Sy Sx j) (5 + k) (flatY Sy Sx j) (flatX Sy Sx j)
  let lbls := (List.range (bs * Sx * Sy)).map fun j =>
    ratTrunc (labels.data (flatB Sy Sx j) 5 (flatY Sy Sx j) (flatX Sy Sx j))
  ((rows, lbls), preds2, labels)

/-- Accumulator state of `Metrics` (src/utils.py lines 16-50).  The two
torchmetrics delegates (`MeanAveragePrecision`, `ConfusionMatrix`) are
external accumulators; they are modelled opaquely as the lists of update
calls fed to them. -/
structure MetricsState where
  numClasses : ℕ
  confusionPreds : Option (List (List ℚ))
  confusionLabels : Option (List ℤ)
  confusionDelegate : List (List (List ℚ) × List ℤ)
  mapDelegate : List (List MAPPredRecord × List MAPLabelRecord)
  deriving DecidableEq

/-- `Metrics.__init__` (src/utils.py lines 17-23): empty running
confusion rows, zeroed delegate accumulators. -/
def Metrics.init (numClasses : ℕ) : MetricsState :=
  { numClasses := numClasses
    confusionPreds := none
    confusionLabels := none
    confusionDelegate := []
    mapDelegate := [] }

/-- `Metrics.update` (src/utils.py lines 25-44): formats the batch for
mAP and for confusion, vstacks the confusion rows onto the running
state, and feeds both delegates. -/
def Metrics.update (σ : List ℚ → List ℚ) (s : MetricsState)
    (preds labels : Tensor4) : MetricsState :=
  let m := format_for_mAP preds labels
  let c := format_for_confusion σ preds labels
  { s with
    confusionPreds := some (match s.confusionPreds with
      | none => c.1.1
      | some old => old ++ c.1.1)
    confusionLabels := some (match s.confusionLabels with
      | none => c.1.2
      | some old => old ++ c.1.2)
    confusionDelegate := s.confusionDelegate ++ [c.1]
    mapDelegate := s.mapDelegate ++ [m] }

/-- `Metrics.compute` (src/utils.py lines 46-50): returns the delegate
mAP summary (modelled as the accumulated update stream) and the running
confusion pair; the state is returned unchanged alongside the output. -/
def Metrics.compute (s : MetricsState) :
    (List (List MAPPredRecord × List MAPLabelRecord)
      × (Option (List (List ℚ)) × Option (List ℤ))) × MetricsState :=
  ((s.mapDelegate, (s.confusionPreds, s.confusionLabels)), s)

/-- Modelled from the spec: the `Metrics` class in src/utils.py has no
`reset` method; the variant imported by src/src/yogo/train.py (which
calls `metrics.reset()` right after `metrics.compute()`) is not present
under src/.  Spec §4.5: "`reset()`: clears confusion state and delegate
mAP accumulator." -/
def Metrics.reset (s : MetricsState) : MetricsState :=
  Metrics.init s.numClasses

/-- `torchvision.datasets.folder.has_file_allowed_extension`
(as invoked from src/dataloader.py line 74):
`filename.lower().endswith(tuple_of_extensions)`. -/
def has_file_allowed_extension (filename : String) (exts : List String) : Bool :=
  exts.any fun e => (filename.map Char.toLower).endsWith e

/-- `ObjectDetectionDataset.make_dataset` (src/dataloader.py lines
46-84).  The filesystem walk and the per-image label loading are
abstracted as the `files` listing and the `loadLabels` map; the argument
handling (both-or-neither check, extension-based validity predicate) is
the translated input handling of lines 64-84. -/
def make_dataset (files : List String) (loadLabels : String → List (List ℚ))
    (exts : Option (List String)) (is_valid_file : Option (String → Bool)) :
    Except String (List (String × List (List ℚ))) :=
  let both_none := exts.isNone && is_valid_file.isNone
  let both_something := exts.isSome && is_valid_file.isSome
  if both_none || both_something then
    .error "Both extensions and is_valid_file cannot be None or not None at the same time"
  else
    let valid : String → Bool :=
      match exts with
      | some es => fun x => has_file_allowed_extension x es
      | none => fun x => (is_valid_file.getD fun _ => false) x
    .ok ((files.filter valid).map fun f => (f, loadLabels f))

/-- `ObjectDetectionDataset.__init__` (src/dataloader.py lines 22-44):
builds `self.samples` via `make_dataset`, with the declared defaults
`extensions=("png",)` and `is_valid_file=None`. -/
def ObjectDetectionDataset.init (files : List String)
    (loadLabels : String → List (List ℚ))
    (exts : Option (List String) := some ["png"])
    (is_valid_file : Option (String → Bool) := none) :
    Except String (List (String × List (List ℚ))) :=
  make_dataset files loadLabels exts is_valid_file

/-- The parsed content of a dataset description file
(src/dataloader.py lines 133-141). -/
structure DatasetDescription where
  class_names : List String
  image_path : String
  label_path : String
  dataset_split_fractions : List (String × ℚ)

/-- Error taxonomy of `load_dataset_description`: `ValueError`
(validation / configuration) vs `FileNotFoundError` (resource). -/
inductive DescError where
  | validation (msg : String)
  | resource (msg : String)
  deriving DecidableEq

/-- `load_dataset_description` (src/dataloader.py lines 130-153); the
filesystem is abstracted as the `isDir` predicate.  Checks first that
the split fractions sum to 1 (`ValueError`), then that both directories
exist (`FileNotFoundError`), and otherwise returns the parsed fields
unchanged. -/
def load_dataset_description (isDir : String → Bool) (d : DatasetDescription) :
    Except DescError (List String × String × String × List (String × ℚ)) :=
  if ¬ ((d.dataset_split_fractions.map Prod.snd).sum = 1) then
    .error (.validation "invalid split fractions for dataset: split fractions must add to 1")
  else if ¬ (isDir d.image_path && isDir d.label_path) then
    .error (.resource "image_path or label_path do not lead to a directory")
  else
    .ok (d.class_names, d.image_path, d.label_path, d.dataset_split_fractions)

/-- The split-fraction mapping used by `get_datasets`
(train/val explicit, test implied as the remainder). -/
structure SplitFractions where
  train : ℚ
  val : ℚ
  test : ℚ

/-- The split sizes computed by `get_datasets` (src/dataloader.py lines
183-188): `int(frac * N)` (truncation) for train and val, the remainder
for test. -/
def dataset_sizes (fr : SplitFractions) (N : ℕ) : ℤ × ℤ × ℤ :=
  let t := ratTrunc (fr.train * (N : ℚ))
  let v := ratTrunc (fr.val * (N : ℚ))
  (t, v, (N : ℤ) - (t + v))

/-- The split-size validation of `get_datasets` (src/dataloader.py lines
190-194): `assert all(sz > 0 for sz in split_sizes.values()) and
sum(split_sizes.values()) == len(full_dataset)`. -/
def get_datasets_split (fr : SplitFractions) (N : ℕ) :
    Except String (ℤ × ℤ × ℤ) :=
  let s := dataset_sizes fr N
  if 0 < s.1 ∧ 0 < s.2.1 ∧ 0 < s.2.2 ∧ s.1 + s.2.1 + s.2.2 = (N : ℤ) then
    .ok s
  else
    .error "could not create valid dataset split sizes"

/-- Corner-rectangle formatting of `draw_rects` (src/utils.py lines
152-160): normalized center-size box to absolute pixel corners, each
coordinate truncated by Python's `int()`. -/
def fmtRect (h w : ℕ) (xc yc bw bh : ℚ) : ℤ × ℤ × ℤ × ℤ :=
  (ratTrunc ((w : ℚ) * (xc - bw / 2)),
   ratTrunc ((h : ℚ) * (yc - bh / 2)),
   ratTrunc ((w : ℚ) * (xc + bw / 2)),
   ratTrunc ((h : ℚ) * (yc + bh / 2)))

/-- The two accepted box sources of `draw_rects`: a dense per-cell
prediction tensor, or a human-authored list of
`(class, xc, yc, w, h)` tuples. -/
inductive Rects where
  | tensor (t : Tensor3)
  | boxlist (rs : List (ℚ × ℚ × ℚ × ℚ × ℚ))

/-- `draw_rects` (src/utils.py lines 127-170) on a grayscale image of
shape `[h, w]`.  The rendering backend is modelled as the sequence of
rectangle outlines drawn on the RGB copy, in order; supplying a
threshold with a box-list source is the `ValueError` of line 149. -/
def draw_rects (h w : ℕ) (rects : Rects) (thresh : Option ℚ) :
    Except String (List (ℤ × ℤ × ℤ × ℤ)) :=
  match rects with
  | .tensor t =>
      let th := thresh.getD 0
      let flat := (List.range (t.sx * t.sy)).map fun i =>
        fun c => t.data c (i / t.sx) (i % t.sx)
      let kept := flat.filter fun r => decide (th < r 4)
      .ok (kept.map fun r => fmtRect h w (r 0) (r 1) (r 2) (r 3))
  | .boxlist rs =>
      match thresh with
      | some _ => .error "threshold only valid for tensor (i.e. prediction) input"
      | none =>
          .ok (rs.map fun r => fmtRect h w r.2.1 r.2.2.1 r.2.2.2.1 r.2.2.2.2)

/-- Concrete label tensor of the spec's decoding scenario: batch of two
images over a 2×2 grid, image 0 with a single occupied cell at row 0 /
col 0 carrying class id 2 and box (1/2, 1/2, 1/5, 1/5), image 1 with an
all-zero presence channel. -/
def scenarioLabels : Tensor4 :=
  { bs := 2, ch := 6, sy := 2, sx := 2,
    data := fun b c y x =>
      if b = 0 ∧ y = 0 ∧ x = 0 then
        if c = 0 then 1
        else if c = 1 then 1/2
        else if c = 2 then 1/2
        else if c = 3 then 1/5
        else if c = 4 then 1/5
        else 2
      else 0 }

/-- Concrete all-zero prediction tensor matching the scenario:
4 + 1 + 5 channels for 5 classes. -/
def scenarioPreds : Tensor4 :=
  { bs := 2, ch := 10, sy := 2, sx := 2, data := fun _ _ _ _ => 0 }

/-- Counting a flat row-major filter over a `sy * sx` grid equals the
row-by-row count over grid coordinates. -/
theorem length_filter_divmod (f : ℕ → ℕ → Bool) (sy sx : ℕ) :
    ((List.range (sy * sx)).filter fun i => f (i / sx) (i % sx)).length
      = ((List.range sy).map fun y =>
          ((List.range sx).filter (f y)).length).sum := by
  induction sy with
  | zero => simp
  | succ n ih =>
    rw [Nat.succ_mul, List.range_add, List.filter_append, List.length_append, ih,
      List.range_succ, List.map_append, List.sum_append]
    simp only [List.map_cons, List.map_nil, List.sum_cons, List.sum_nil]
    congr 1
    have h2 : ∀ i ∈ List.range sx,
        (f ((n * sx + i) / sx) ((n * sx + i) % sx)) = f n i := by
      intro i hi
      have hisx : i < sx := List.mem_range.mp hi
      have hsx : 0 < sx := Nat.lt_of_le_of_lt (Nat.zero_le i) hisx
      have hd : (n * sx + i) / sx = n := by
        rw [Nat.add_comm, Nat.mul_comm, Nat.add_mul_div_left i n hsx,
          Nat.div_eq_of_lt hisx, Nat.zero_add]
      have hm : (n * sx + i) % sx = i := by
        rw [Nat.mul_comm n sx, Nat.mul_add_mod, Nat.mod_eq_of_lt hisx]
      rw [hd, hm]
    rw [List.filter_map, List.length_map]
    congr 1
    refine List.filter_congr ?_
    intro i hi
    simpa using h2 i hi

/-- If the presence channel of image `b` is identically zero, then no
cell of that image's label grid is occupied. -/
theorem numOccupied_eq_zero_of_allZero (labels : Tensor4) (b : ℕ)
    (h : allZeroPresence labels b = true) : numOccupied labels b = 0 := by
  unfold allZeroPresence at h
  rw [List.all_eq_true] at h
  apply List.sum_eq_zero
  intro n hn
  rw [List.mem_map] at hn
  obtain ⟨y, hy, rfl⟩ := hn
  rw [List.length_eq_zero, List.filter_eq_nil_iff]
  intro x hx
  have hy2 := h y hy
  rw [List.all_eq_true] at hy2
  have hx2 := hy2 x hx
  simp only [decide_eq_true_eq] at hx2 ⊢
  rw [hx2]
  norm_num

/-- When the two tensors share grid extents, the flat occupied-cell mask
of the decoder selects exactly the occupied grid cells. -/
theorem cellsUsed_length (preds labels : Tensor4)
    (hsy : preds.sy = labels.sy) (hsx : preds.sx = labels.sx) (b : ℕ) :
    (cellsUsed preds labels b).length = numOccupied labels b := by
  unfold cellsUsed numOccupied
  rw [hsy, hsx]
  exact length_filter_divmod
    (fun y x => decide (labels.data b 0 y x = 1)) labels.sy labels.sx

/-- C1: for every batched prediction/label pair of matching shape and
every image of the batch, `format_for_mAP` emits one prediction record
and one ground-truth record per image, and the box, label and score
sequences of image `b`'s records each have length equal to the number of
cells of that image's label grid whose presence flag equals 1 (zero
occupied cells giving empty sequences). -/
theorem format_for_mAP_record_lengths (preds labels : Tensor4)
    (hbs : preds.bs = labels.bs) (hsy : preds.sy = labels.sy)
    (hsx : preds.sx = labels.sx) (b : ℕ) (hb : b < labels.bs) :
    (format_for_mAP preds labels).1.length = labels.bs ∧
    (format_for_mAP preds labels).2.length = labels.bs ∧
    (format_for_mAP preds labels).1[b]? = some (mAPPredRec preds labels b) ∧
    (format_for_mAP preds labels).2[b]? = some (mAPLabelRec preds labels b) ∧
    (mAPLabelRec preds labels b).boxes.length = numOccupied labels b ∧
    (mAPLabelRec preds labels b).labels.length = numOccupied labels b ∧
    (mAPPredRec preds labels b).boxes.length = numOccupied labels b ∧
    (mAPPredRec preds labels b).scores.length = numOccupied labels b ∧
    (mAPPredRec preds labels b).labels.length = numOccupied labels b := by
  have hmin : min preds.bs labels.bs = labels.bs := by rw [hbs, min_self]
  refine ⟨?_, ?_, ?_, ?_, ?_, ?_, ?_, ?_, ?_⟩
  · simp [format_for_mAP, hmin]
  · simp [format_for_mAP, hmin]
  · simp [format_for_mAP, hmin, hb]
  · simp [format_for_mAP, hmin, hb]
  all_goals
    by_cases hz : allZeroPresence labels b
    · simp [mAPLabelRec, mAPPredRec, hz, numOccupied_eq_zero_of_allZero labels b hz]
    · simp [mAPLabelRec, mAPPredRec, hz, cellsUsed_length preds labels hsy hsx b]

/-- Witness for C1: the length law evaluated on the concrete scenario
batch (image 0 has one occupied cell). -/
theorem format_for_mAP_record_lengths_witness :
    (mAPLabelRec scenarioPreds scenarioLabels 0).boxes.length
      = numOccupied scenarioLabels 0 :=
  (format_for_mAP_record_lengths scenarioPreds scenarioLabels rfl rfl rfl 0
    (by decide)).2.2.2.2.1

/-- C2: within an image, the decoder reads every prediction field and
every label field over one and the same occupied-cell index list (each
selected flat index having presence flag 1), and row `j` of the
confusion extractor's probability output and entry `j` of its label
output read the prediction and label tensors at the identical
`(image, cell)` coordinate `(flatB j, flatY j, flatX j)`. -/
theorem decoder_confusion_index_alignment (σ : List ℚ → List ℚ)
    (preds labels : Tensor4)
    (hbs : preds.bs = labels.bs) (hsy : preds.sy = labels.sy)
    (hsx : preds.sx = labels.sx)
    (b : ℕ) (hb : b < labels.bs)
    (j : ℕ) (hj : j < labels.bs * labels.sx * labels.sy) :
    (∃ cells : List ℕ,
      (∀ i ∈ cells, labels.data b 0 (i / preds.sx) (i % preds.sx) = 1) ∧
      (mAPLabelRec preds labels b).boxes = cells.map (fun i =>
        (rowCell labels preds.sx b i 1, rowCell labels preds.sx b i 2,
         rowCell labels preds.sx b i 3, rowCell labels preds.sx b i 4)) ∧
      (mAPLabelRec preds labels b).labels
        = cells.map (fun i => rowCell labels preds.sx b i 5) ∧
      (mAPPredRec preds labels b).boxes = cells.map (fun i =>
        (rowCell preds preds.sx b i 0, rowCell preds preds.sx b i 1,
         rowCell preds preds.sx b i 2, rowCell preds preds.sx b i 3)) ∧
      (mAPPredRec preds labels b).scores
        = cells.map (fun i => rowCell preds preds.sx b i 4) ∧
      (mAPPredRec preds labels b).labels = cells.map (fun i =>
        argmaxIdx (logitsAt preds b (i / preds.sx) (i % preds.sx)))) ∧
    (format_for_confusion σ preds labels).1.1[j]? =
      some ((List.range (preds.ch - 5)).map fun k =>
        (softmaxWrite σ preds).data (flatB labels.sy labels.sx j) (5 + k)
          (flatY labels.sy labels.sx j) (flatX labels.sy labels.sx j)) ∧
    (format_for_confusion σ preds labels).1.2[j]? =
      some (ratTrunc (labels.data (flatB labels.sy labels.sx j) 5
        (flatY labels.sy labels.sx j) (flatX labels.sy labels.sx j))) := by
  refine ⟨?_, ?_, ?_⟩
  · by_cases hz : allZeroPresence labels b = true
    · exact ⟨[], by simp, by simp [mAPLabelRec, hz], by simp [mAPLabelRec, hz],
        by simp [mAPPredRec, hz], by simp [mAPPredRec, hz], by simp [mAPPredRec, hz]⟩
    · refine ⟨cellsUsed preds labels b, ?_, by simp [mAPLabelRec, hz],
        by simp [mAPLabelRec, hz], by simp [mAPPredRec, hz],
        by simp [mAPPredRec, hz], by simp [mAPPredRec, hz]⟩
      intro i hi
      have hmem := List.of_mem_filter hi
      simpa using hmem
  · simp [format_for_confusion, hj]
  · simp [format_for_confusion, hj]

/-- Witness for C2: the alignment law evaluated on the concrete scenario
batch at image 0 and flat position 0, with the identity normalizer. -/
theorem decoder_confusion_index_alignment_witness :
    (format_for_confusion (fun l => l) scenarioPreds scenarioLabels).1.2[0]? =
      some (ratTrunc (scenarioLabels.data
        (flatB scenarioLabels.sy scenarioLabels.sx 0) 5
        (flatY scenarioLabels.sy scenarioLabels.sx 0)
        (flatX scenarioLabels.sy scenarioLabels.sx 0))) :=
  (decoder_confusion_index_alignment (fun l => l) scenarioPreds scenarioLabels
    rfl rfl rfl 0 (by decide) 0 (by decide)).2.2

/-- C3: for every batched pair, the confusion extractor emits exactly
`batch * Sy * Sx` probability rows and a parallel list of exactly
`batch * Sy * Sx` integer label ids, independent of occupancy. -/
theorem format_for_confusion_row_counts (σ : List ℚ → List ℚ)
    (preds labels : Tensor4) :
    (format_for_confusion σ preds labels).1.1.length
      = labels.bs * labels.sy * labels.sx ∧
    (format_for_confusion σ preds labels).1.2.length
      = labels.bs * labels.sy * labels.sx := by
  constructor <;>
    · simp only [format_for_confusion, List.length_map, List.length_range]
      ring

/-- C4: `format_for_confusion` mutates the prediction tensor in place:
afterwards every in-range class-logit position (channel ≥ 5) holds the
normalizing transform of the cell's previous logit slice, channels 0-4
keep their previous values, the tensor extents are untouched, and the
label tensor is returned entirely unchanged. -/
theorem format_for_confusion_frame (σ : List ℚ → List ℚ)
    (preds labels : Tensor4) (b c y x : ℕ)
    (hb : b < preds.bs) (hy : y < preds.sy) (hx : x < preds.sx) :
    (format_for_confusion σ preds labels).2.2 = labels ∧
    (format_for_confusion σ preds labels).2.1.bs = preds.bs ∧
    (format_for_confusion σ preds labels).2.1.ch = preds.ch ∧
    (format_for_confusion σ preds labels).2.1.sy = preds.sy ∧
    (format_for_confusion σ preds labels).2.1.sx = preds.sx ∧
    (c < 5 →
      (format_for_confusion σ preds labels).2.1.data b c y x
        = preds.data b c y x) ∧
    (5 ≤ c → c < preds.ch →
      (format_for_confusion σ preds labels).2.1.data b c y x
        = (σ (logitsAt preds b y x)).getD (c - 5) 0) := by
  refine ⟨rfl, rfl, rfl, rfl, rfl, ?_, ?_⟩
  · intro hc
    show (softmaxWrite σ preds).data b c y x = preds.data b c y x
    simp only [softmaxWrite]
    rw [if_neg]
    intro h
    exact absurd h.2.1 (Nat.not_le.mpr hc)
  · intro h5 hch
    show (softmaxWrite σ preds).data b c y x
      = (σ (logitsAt preds b y x)).getD (c - 5) 0
    simp only [softmaxWrite]
    rw [if_pos ⟨hb, h5, hch, hy, hx⟩]

/-- Witness for C4: the frame law evaluated on the concrete scenario
batch at channel 5 of cell (0, 0, 0), with the identity normalizer. -/
theorem format_for_confusion_frame_witness :
    (format_for_confusion (fun l => l) scenarioPreds scenarioLabels).2.1.data 0 5 0 0
      = ((fun (l : List ℚ) => l) (logitsAt scenarioPreds 0 0 0)).getD (5 - 5) 0 :=
  (format_for_confusion_frame (fun l => l) scenarioPreds scenarioLabels 0 5 0 0
    (by decide) (by decide) (by decide)).2.2.2.2.2.2 (by decide) (by decide)

/-- Label tensor with a single occupied cell whose class channel holds
the non-integral value 5/2. -/
def fracLabels : Tensor4 :=
  { bs := 1, ch := 6, sy := 1, sx := 1,
    data := fun _ c _ _ => if c = 0 then 1 else if c = 5 then 5/2 else 0 }

/-- All-zero prediction tensor matching `fracLabels`. -/
def fracPreds : Tensor4 :=
  { bs := 1, ch := 10, sy := 1, sx := 1, data := fun _ _ _ _ => 0 }

/-- C5 counterexample: the decoder does not round or cast channel 5 —
with the stored class value 5/2 the emitted label is exactly 5/2, which
equals no integer, so the label record does not carry an integer class
id. -/
theorem label_class_not_cast :
    (mAPLabelRec fracPreds fracLabels 0).labels = [5/2] ∧
    ∀ n : ℤ, ((5 : ℚ) / 2) ≠ (n : ℚ) := by
  constructor
  · rfl
  · intro n h
    have h2 : (n : ℚ) * 2 = 5 := by
      rw [← h, div_mul_cancel₀]
      norm_num
    have h3 : n * 2 = 5 := by exact_mod_cast h2
    omega

/-- C5 (amended): for every image with at least one occupied cell, the
decoder's label record carries channels 1-4 as the box and channel 5's
stored value — copied as is, not rounded or cast — as the label; on the
concrete 2×2-grid / 5-class scenario the decoder emits exactly one
occupied label record with box (1/2, 1/2, 1/5, 1/5) and label value 2
(integral because the stored value is), and empty records for the image
whose presence channel is all zero. -/
theorem mAP_label_record_raw_class (preds labels : Tensor4) (b : ℕ)
    (hz : allZeroPresence labels b = false) :
    (mAPLabelRec preds labels b).boxes = (cellsUsed preds labels b).map (fun i =>
      (rowCell labels preds.sx b i 1, rowCell labels preds.sx b i 2,
       rowCell labels preds.sx b i 3, rowCell labels preds.sx b i 4)) ∧
    (mAPLabelRec preds labels b).labels
      = (cellsUsed preds labels b).map (fun i => rowCell labels preds.sx b i 5) ∧
    (format_for_mAP scenarioPreds scenarioLabels).2 =
      [{ boxes := [(1/2, 1/2, 1/5, 1/5)], labels := [2] }, { boxes := [], labels := [] }] ∧
    (format_for_mAP scenarioPreds scenarioLabels).1 =
      [{ boxes := [(0, 0, 0, 0)], scores := [0], labels := [0] },
       { boxes := [], scores := [], labels := [] }] := by
  have hz2 : ¬ allZeroPresence labels b = true := by simp [hz]
  exact ⟨by simp [mAPLabelRec, hz2], by simp [mAPLabelRec, hz2], rfl, rfl⟩

/-- Witness for C5: the raw-copy law evaluated on the concrete scenario
batch at image 0. -/
theorem mAP_label_record_raw_class_witness :
    (mAPLabelRec scenarioPreds scenarioLabels 0).labels
      = (cellsUsed scenarioPreds scenarioLabels 0).map
          (fun i => rowCell scenarioLabels scenarioPreds.sx 0 i 5) :=
  (mAP_label_record_raw_class scenarioPreds scenarioLabels 0 (by decide)).2.1

/-- C6: `get_datasets` computes `size[train] = floor(frac[train]*N)` and
`size[val] = floor(frac[val]*N)` (truncation coincides with floor for
nonnegative fractions) and `size[test] = N - size[train] - size[val]`;
its validation fails exactly when some computed size is ≤ 0, and every
split that passes validation has three positive sizes summing exactly
to N. -/
theorem get_datasets_split_sizes (fr : SplitFractions) (N : ℕ)
    (htr : 0 ≤ fr.train) (hva : 0 ≤ fr.val)
    (hsum : fr.train + fr.val + fr.test = 1) :
    (dataset_sizes fr N).1 = ⌊fr.train * (N : ℚ)⌋ ∧
    (dataset_sizes fr N).2.1 = ⌊fr.val * (N : ℚ)⌋ ∧
    (dataset_sizes fr N).2.2
      = (N : ℤ) - ⌊fr.train * (N : ℚ)⌋ - ⌊fr.val * (N : ℚ)⌋ ∧
    ((∃ e, get_datasets_split fr N = .error e) ↔
      (dataset_sizes fr N).1 ≤ 0 ∨ (dataset_sizes fr N).2.1 ≤ 0 ∨
        (dataset_sizes fr N).2.2 ≤ 0) ∧
    (∀ s, get_datasets_split fr N = .ok s →
      s.1 + s.2.1 + s.2.2 = (N : ℤ) ∧ 0 < s.1 ∧ 0 < s.2.1 ∧ 0 < s.2.2) := by
  have h0t : (0 : ℚ) ≤ fr.train * (N : ℚ) := mul_nonneg htr (Nat.cast_nonneg N)
  have h0v : (0 : ℚ) ≤ fr.val * (N : ℚ) := mul_nonneg hva (Nat.cast_nonneg N)
  have ht : ratTrunc (fr.train * (N : ℚ)) = ⌊fr.train * (N : ℚ)⌋ := by
    unfold ratTrunc
    rw [if_neg (not_lt.mpr h0t)]
  have hvv : ratTrunc (fr.val * (N : ℚ)) = ⌊fr.val * (N : ℚ)⌋ := by
    unfold ratTrunc
    rw [if_neg (not_lt.mpr h0v)]
  have hds : dataset_sizes fr N
      = (ratTrunc (fr.train * (N : ℚ)), ratTrunc (fr.val * (N : ℚ)),
         (N : ℤ) - (ratTrunc (fr.train * (N : ℚ)) + ratTrunc (fr.val * (N : ℚ)))) := rfl
  have hgs : get_datasets_split fr N
      = if 0 < ratTrunc (fr.train * (N : ℚ)) ∧ 0 < ratTrunc (fr.val * (N : ℚ)) ∧
            0 < (N : ℤ) - (ratTrunc (fr.train * (N : ℚ)) + ratTrunc (fr.val * (N : ℚ))) ∧
            ratTrunc (fr.train * (N : ℚ)) + ratTrunc (fr.val * (N : ℚ)) +
              ((N : ℤ) - (ratTrunc (fr.train * (N : ℚ)) + ratTrunc (fr.val * (N : ℚ)))) = (N : ℤ)
        then .ok (dataset_sizes fr N)
        else .error "could not create valid dataset split sizes" := rfl
  refine ⟨by rw [hds, ht], by rw [hds, hvv], ?_, ?_, ?_⟩
  · rw [hds, ht, hvv]
    show (N : ℤ) - (⌊fr.train * (N : ℚ)⌋ + ⌊fr.val * (N : ℚ)⌋) = _
    ring
  · rw [hds, hgs]
    dsimp only
    by_cases hc : 0 < ratTrunc (fr.train * (N : ℚ)) ∧ 0 < ratTrunc (fr.val * (N : ℚ)) ∧
        0 < (N : ℤ) - (ratTrunc (fr.train * (N : ℚ)) + ratTrunc (fr.val * (N : ℚ)))
    · rw [if_pos ⟨hc.1, hc.2.1, hc.2.2, by ring⟩]
      constructor
      · rintro ⟨e, he⟩
        exact Except.noConfusion he
      · intro h
        rcases hc with ⟨h1, h2, h3⟩
        rcases h with h | h | h <;> exact absurd h (by omega)
    · rw [if_neg fun h => hc ⟨h.1, h.2.1, h.2.2.1⟩]
      constructor
      · intro _
        by_contra hall
        push_neg at hall
        exact hc hall
      · intro _
        exact ⟨_, rfl⟩
  · intro s hs
    rw [hgs] at hs
    split_ifs at hs with hcond
    · rw [hds] at hs
      have hinj := Except.ok.inj hs
      rw [← hinj]
      exact ⟨by dsimp only; ring, hcond.1, hcond.2.1, hcond.2.2.1⟩

/-- Witness for C6: the size law evaluated at fractions (1/2, 1/4, 1/4)
and N = 4. -/
theorem get_datasets_split_sizes_witness :
    (dataset_sizes ⟨1/2, 1/4, 1/4⟩ 4).1 = ⌊(1/2 : ℚ) * ((4 : ℕ) : ℚ)⌋ :=
  (get_datasets_split_sizes ⟨1/2, 1/4, 1/4⟩ 4 (by norm_num) (by norm_num)
    (by norm_num)).1

/-- C7: `Metrics.reset()` immediately after `Metrics.compute()` leaves
the aggregator in the freshly constructed state (empty confusion rows,
zeroed delegate accumulators), and `compute` itself never resets — the
state it hands back is exactly the state it was given. -/
theorem metrics_reset_after_compute (s : MetricsState) :
    Metrics.reset (Metrics.compute s).2 = Metrics.init s.numClasses ∧
    (Metrics.compute s).2 = s ∧
    (Metrics.init s.numClasses).confusionPreds = none ∧
    (Metrics.init s.numClasses).confusionLabels = none ∧
    (Metrics.init s.numClasses).confusionDelegate = [] ∧
    (Metrics.init s.numClasses).mapDelegate = [] :=
  ⟨rfl, rfl, rfl, rfl, rfl, rfl⟩

/-- C8: `load_dataset_description` raises its validation error exactly
when the split fractions do not sum to 1; when they sum to 1 and both
directories exist it returns the class list, the two paths and the
fraction mapping unchanged. -/
theorem load_dataset_description_spec (isDir : String → Bool)
    (d : DatasetDescription) :
    ((∃ m, load_dataset_description isDir d = .error (.validation m)) ↔
      (d.dataset_split_fractions.map Prod.snd).sum ≠ 1) ∧
    ((d.dataset_split_fractions.map Prod.snd).sum = 1 →
      isDir d.image_path = true → isDir d.label_path = true →
      load_dataset_description isDir d =
        .ok (d.class_names, d.image_path, d.label_path,
             d.dataset_split_fractions)) := by
  constructor
  · constructor
    · rintro ⟨m, hm⟩ hsum
      unfold load_dataset_description at hm
      rw [if_neg (not_not_intro hsum)] at hm
      split_ifs at hm
      have := Except.error.inj hm
      exact DescError.noConfusion this
    · intro hsum
      refine ⟨"invalid split fractions for dataset: split fractions must add to 1", ?_⟩
      unfold load_dataset_description
      rw [if_pos hsum]
  · intro hsum h1 h2
    unfold load_dataset_description
    rw [if_neg (not_not_intro hsum), if_neg]
    intro hdir
    rw [h1, h2] at hdir
    exact hdir rfl

/-- A concrete well-formed dataset description. -/
def demoDescription : DatasetDescription :=
  { class_names := ["healthy"], image_path := "images", label_path := "labels",
    dataset_split_fractions := [("train", 1/2), ("val", 1/4), ("test", 1/4)] }

/-- Witness for C8: with fractions summing to 1 and both directories
present, the description is returned unchanged. -/
theorem load_dataset_description_spec_witness :
    load_dataset_description (fun _ => true) demoDescription =
      .ok (demoDescription.class_names, demoDescription.image_path,
           demoDescription.label_path, demoDescription.dataset_split_fractions) :=
  (load_dataset_description_spec (fun _ => true) demoDescription).2
    (by norm_num [demoDescription]) rfl rfl

/-- C9: on a 100×100 grayscale image, the box-list source with the
single entry (class 0, xc 1/2, yc 1/2, w 1/5, h 1/5) and no threshold
is converted by the center-size-to-corner formula `x0 = w * (xc - w/2)`
(etc.) and drawn as exactly the outline rectangle (40, 40)-(60, 60). -/
theorem draw_rects_scenario :
    draw_rects 100 100 (.boxlist [(0, 1/2, 1/2, 1/5, 1/5)]) none
      = .ok [(40, 40, 60, 60)] := by
  show Except.ok [fmtRect 100 100 (1/2) (1/2) (1/5) (1/5)] = _
  have h1 : ((100 : ℕ) : ℚ) * ((1 : ℚ)/2 - (1/5)/2) = 40 := by norm_num
  have h2 : ((100 : ℕ) : ℚ) * ((1 : ℚ)/2 + (1/5)/2) = 60 := by norm_num
  unfold fmtRect
  rw [h1, h2]
  norm_num [ratTrunc]

/-- C10: constructing the dataset without passing either filter argument
does not raise the both-or-neither configuration error: the defaulted
`extensions = ("png",)` is what `make_dataset` receives, so the files
are filtered by the png extension; the check fires only when
`make_dataset` itself receives two Nones. -/
theorem objectDetectionDataset_default_filters (files : List String)
    (loadLabels : String → List (List ℚ)) :
    ObjectDetectionDataset.init files loadLabels
      = .ok ((files.filter fun f => has_file_allowed_extension f ["png"]).map
          fun f => (f, loadLabels f)) ∧
    (∃ e, make_dataset files loadLabels none none = .error e) :=
  ⟨rfl, ⟨_, rfl⟩⟩
